import Mathlib

/-!
# Verification of the paid-blog post-lifecycle and credit-ledger logic

A shallow embedding of the repository's two server variants:

* the **fee-per-post** variant (`Fee` namespace): schema `server/src/db/schema.ts`,
  handlers `create_post` (fee version), `get_post`, `get_posts`, `update_post`,
  `repost`, `delete_post`;
* the **credits / first-post-free** variant (`Credits` namespace): schema with
  `users`, `posts`, `credit_purchases` tables, handlers `register_user`,
  `login_user`, `create_post` (credits version), `purchase_credits`.

JavaScript `Date` values are embedded as milliseconds-since-epoch integers
(`Int`), SQL `numeric(10,2)` money columns as exact rationals (`Rat`), and each
handler as a pure function over an explicit database state.  Clock reads
(`new Date()`, `Date.now()`) and randomness (`Math.random()`) are external
collaborators and enter as explicit parameters, one per read the source
performs.  A thrown JS error is an `Err` value; a handler that writes before it
can fail returns the committed state next to its outcome.
-/

namespace PaidBlog

/-- The error taxonomy the handlers throw (`throw new Error(...)` in the source),
one constructor per distinguishable message shape. -/
inductive Err where
  /-- `Post with id X not found` / `User not found` -/
  | notFound (message : String)
  /-- `Insufficient credits. Required: R, Available: A` -/
  | insufficientCredits (required available : Int)
  /-- `Invalid email or password` -/
  | invalidCredentials
  /-- `Invalid password format` -/
  | invalidHashFormat
  /-- `... is required for ... payments` (missing payment detail) -/
  | missingDetail (message : String)
  /-- an injected storage-layer failure (the database rejecting a statement) -/
  | dbFailure
  deriving DecidableEq, Repr

/-- Outcome of a handler call: the returned value or the thrown error. -/
inductive Res (α : Type) where
  | ok : α → Res α
  | err : Err → Res α
  deriving DecidableEq, Repr

/-- 24 hours in milliseconds (`24 * 60 * 60 * 1000` in the source). -/
def dayMs : Int := 24 * 60 * 60 * 1000

namespace Fee

/-- A row of the fee-variant `posts` table (`server/src/db/schema.ts`). -/
structure Post where
  id : Nat
  title : String
  content : String
  price : Rat
  posted_at : Int
  expires_at : Int
  created_at : Int
  updated_at : Int
  deriving DecidableEq, Repr

/-- The API `Post` object: the row plus the computed `is_active` field. -/
structure PostOut where
  id : Nat
  title : String
  content : String
  price : Rat
  posted_at : Int
  expires_at : Int
  created_at : Int
  updated_at : Int
  is_active : Bool
  deriving DecidableEq, Repr

/-- Spread a row into an API object with the given computed `is_active`. -/
def Post.out (p : Post) (active : Bool) : PostOut :=
  { id := p.id, title := p.title, content := p.content, price := p.price,
    posted_at := p.posted_at, expires_at := p.expires_at,
    created_at := p.created_at, updated_at := p.updated_at, is_active := active }

/-- The fee-variant database: the `posts` relation plus the serial-id counter. -/
structure DB where
  posts : List Post
  nextId : Nat
  deriving DecidableEq, Repr

/-- `select ... where eq(postsTable.id, id)` on a primary key. -/
def DB.find (db : DB) (i : Nat) : Option Post :=
  db.posts.find? (fun p => p.id == i)

/-- `update ... set f ... where eq(postsTable.id, i)`. -/
def DB.updateById (db : DB) (i : Nat) (f : Post → Post) : DB :=
  { db with posts := db.posts.map (fun p => if p.id == i then f p else p) }

/-- Input of the fee-variant `createPost` (zod `createPostInputSchema`). -/
structure CreatePostInput where
  title : String
  content : String
  price : Rat
  deriving DecidableEq, Repr

/-- `handlers/create_post.ts` (fee variant): inserts a post with
`posted_at = now`, `expires_at = now + 24h`, `created_at = updated_at = now`;
the returned object recomputes `is_active` against a second clock read
(`const currentTime = new Date()`), embedded as `now2`. -/
def createPost (input : CreatePostInput) (now now2 : Int) (db : DB) : DB × PostOut :=
  let expiresAt := now + dayMs
  let post : Post :=
    { id := db.nextId, title := input.title, content := input.content,
      price := input.price, posted_at := now, expires_at := expiresAt,
      created_at := now, updated_at := now }
  ({ posts := db.posts ++ [post], nextId := db.nextId + 1 },
   post.out (decide (now2 < post.expires_at)))

/-- `handlers/get_post.ts`: returns `null` when the id is absent; otherwise the
row with `is_active: currentTime <= post.expires_at` (note the `<=`). -/
def getPost (i : Nat) (now : Int) (db : DB) : Option PostOut :=
  match db.find i with
  | none => none
  | some post => some (post.out (decide (now ≤ post.expires_at)))

/-- Insert into a list kept in descending `posted_at` order. -/
def insertPostedDesc (p : Post) : List Post → List Post
  | [] => [p]
  | q :: l => if q.posted_at < p.posted_at then p :: q :: l else q :: insertPostedDesc p l

/-- `orderBy(desc(postsTable.posted_at))`. -/
def sortPostedDesc : List Post → List Post
  | [] => []
  | p :: l => insertPostedDesc p (sortPostedDesc l)

/-- `handlers/get_posts.ts`: all posts, newest `posted_at` first, each with
`is_active: currentTime < post.expires_at` (strict). -/
def getPosts (now : Int) (db : DB) : List PostOut :=
  (sortPostedDesc db.posts).map (fun post => post.out (decide (now < post.expires_at)))

/-- Input of `updatePost` (zod `updatePostInputSchema`): the id plus the
optional fields; a missing field is `none`. -/
structure UpdatePostInput where
  id : Nat
  title : Option String
  content : Option String
  price : Option Rat
  deriving DecidableEq, Repr

/-- The `updateData` object of `handlers/update_post.ts`: only the provided
fields, plus `updated_at: new Date()`, applied to a row. -/
def applyUpdate (input : UpdatePostInput) (now : Int) (p : Post) : Post :=
  { p with
    title := input.title.getD p.title
    content := input.content.getD p.content
    price := input.price.getD p.price
    updated_at := now }

/-- `handlers/update_post.ts`: updates the provided fields of the row with the
given id (error if absent), and returns it with `is_active: expires_at > now`
recomputed against a second clock read `now2`. -/
def updatePost (input : UpdatePostInput) (now now2 : Int) (db : DB) : Res (DB × PostOut) :=
  match db.find input.id with
  | none => .err (.notFound ("Post with id " ++ Nat.repr input.id ++ " not found"))
  | some p =>
    let p2 := applyUpdate input now p
    .ok (db.updateById input.id (fun _ => p2), p2.out (decide (now2 < p2.expires_at)))

/-- `handlers/repost.ts`: sets `posted_at = now`, `expires_at = now + 24h`,
`updated_at = now` on the row with the given id (error if absent); the returned
object computes `is_active: post.expires_at > new Date()` (second read `now2`). -/
def repost (i : Nat) (now now2 : Int) (db : DB) : Res (DB × PostOut) :=
  match db.find i with
  | none => .err (.notFound ("Post with id " ++ Nat.repr i ++ " not found"))
  | some p =>
    let p2 := { p with posted_at := now, expires_at := now + dayMs, updated_at := now }
    .ok (db.updateById i (fun _ => p2), p2.out (decide (now2 < p2.expires_at)))

/-- `handlers/delete_post.ts`: checks existence (error
`Post with id X not found` if absent), then deletes the row and returns
`{ success: true, id }` (embedded as the id). -/
def deletePost (i : Nat) (db : DB) : Res (DB × Nat) :=
  match db.find i with
  | none => .err (.notFound ("Post with id " ++ Nat.repr i ++ " not found"))
  | some _ => .ok ({ db with posts := db.posts.filter (fun p => !(p.id == i)) }, i)

/-- A sample stored post used by concrete evaluations. -/
def demoPost : Post :=
  { id := 1, title := "t", content := "c", price := 3,
    posted_at := 0, expires_at := 1000, created_at := 0, updated_at := 0 }

/-- A sample database holding `demoPost`. -/
def demoDB : DB := { posts := [demoPost], nextId := 2 }

end Fee

/-! ## Decimal printing

`Date.now()` timestamps are interpolated into transaction ids with `${...}`;
this is ordinary decimal notation, embedded with an explicit fuel so that it is
structurally recursive. -/

/-- Decimal digits of `n`, least significant first, with explicit fuel. -/
def decDigitsRev (fuel n : Nat) : List Char :=
  match fuel with
  | 0 => []
  | fuel' + 1 =>
    if n < 10 then [Nat.digitChar n]
    else Nat.digitChar (n % 10) :: decDigitsRev fuel' (n / 10)

/-- The decimal string of a natural number (JS `${n}` for an integer). -/
def natDec (n : Nat) : String := String.mk (decDigitsRev (n + 1) n).reverse

/-- Value of a decimal digit character. -/
def digitVal (c : Char) : Nat := c.toNat - 48

/-- Read back a least-significant-first digit list. -/
def ofDigitsRev : List Char → Nat
  | [] => 0
  | c :: l => digitVal c + 10 * ofDigitsRev l

namespace Credits

/-- A row of the credits-variant `users` table. -/
structure User where
  id : Nat
  email : String
  password_hash : String
  phone_number : String
  credits : Int
  created_at : Int
  updated_at : Int
  deriving DecidableEq, Repr

/-- A row of the credits-variant `posts` table. -/
structure Post where
  id : Nat
  user_id : Nat
  title : String
  description : String
  image_path : String
  expires_at : Int
  created_at : Int
  updated_at : Int
  deriving DecidableEq, Repr

/-- The enumerated payment methods (zod `z.enum`). -/
inductive PaymentMethod where
  | credit_card
  | paypal
  | bank_transfer
  deriving DecidableEq, Repr

/-- A row of the `credit_purchases` table. -/
structure Purchase where
  id : Nat
  user_id : Nat
  credits_purchased : Int
  amount_paid : Rat
  payment_method : PaymentMethod
  transaction_id : String
  created_at : Int
  deriving DecidableEq, Repr

/-- The credits-variant database: three relations plus serial-id counters. -/
structure St where
  users : List User
  posts : List Post
  purchases : List Purchase
  nextUserId : Nat
  nextPostId : Nat
  nextPurchaseId : Nat
  deriving DecidableEq, Repr

/-- The empty database (serial columns start at 1). -/
def initSt : St :=
  { users := [], posts := [], purchases := [],
    nextUserId := 1, nextPostId := 1, nextPurchaseId := 1 }

/-- `select ... from users where eq(usersTable.id, i)`. -/
def St.findUser (st : St) (i : Nat) : Option User :=
  st.users.find? (fun u => u.id == i)

/-- `update users set f where eq(usersTable.id, i)`. -/
def St.updateUser (st : St) (i : Nat) (f : User → User) : St :=
  { st with users := st.users.map (fun u => if u.id == i then f u else u) }

/-! ### Password hashing and comparison (`handlers/login_user.ts`,
`handlers/register_user.ts`)

SHA-256 itself is an external crypto collaborator; the embedding is
parameterised by `h : String → String`, the hex digest function, whose only
relevant property — a 64-hex-character output — enters theorems as a
hypothesis. -/

/-- `createHash('sha256').update(password + salt).digest('hex')`. -/
def hashPassword (h : String → String) (password salt : String) : String :=
  h (password ++ salt)

/-- The value of a hexadecimal digit character, `none` if not one
(Node `Buffer.from(-, 'hex')` accepts both cases). -/
def hexDigitVal (c : Char) : Option Nat :=
  if '0' ≤ c ∧ c ≤ '9' then some (c.toNat - 48)
  else if 'a' ≤ c ∧ c ≤ 'f' then some (c.toNat - 87)
  else if 'A' ≤ c ∧ c ≤ 'F' then some (c.toNat - 55)
  else none

/-- `Buffer.from(s, 'hex')` on a character list: consume pairs of hex digits,
stopping at the first invalid or unpaired character (Node truncates there). -/
def bufferFromHexData : List Char → List Nat
  | c1 :: c2 :: rest =>
    match hexDigitVal c1, hexDigitVal c2 with
    | some hi, some lo => (16 * hi + lo) :: bufferFromHexData rest
    | _, _ => []
  | _ => []

/-- `Buffer.from(s, 'hex')` as a byte list. -/
def bufferFromHex (s : String) : List Nat := bufferFromHexData s.data

/-- Every character is a hex digit. -/
def isHexStr (s : String) : Bool :=
  s.data.all (fun c => (hexDigitVal c).isSome)

/-- JS `String.prototype.split` with a single-character separator, on the
underlying character list. -/
def jsSplitData (sep : Char) : List Char → List (List Char)
  | [] => [[]]
  | c :: cs =>
    if c = sep then [] :: jsSplitData sep cs
    else
      match jsSplitData sep cs with
      | [] => [[c]]
      | h :: t => (c :: h) :: t

/-- JS `s.split(sep)`. -/
def jsSplit (sep : Char) (s : String) : List String :=
  (jsSplitData sep s.data).map String.mk

/-- `comparePasswords` of `handlers/login_user.ts`: hash the provided password
with the salt, decode both hex strings to buffers, refuse on a length mismatch,
otherwise `timingSafeEqual`. -/
def comparePasswords (h : String → String) (provided stored salt : String) : Bool :=
  let providedHash := hashPassword h provided salt
  let storedBuffer := bufferFromHex stored
  let providedBuffer := bufferFromHex providedHash
  if storedBuffer.length != providedBuffer.length then false
  else storedBuffer == providedBuffer

/-- Input of `registerUser` (zod `registerUserInputSchema`). -/
structure RegisterInput where
  email : String
  password : String
  phone_number : String
  deriving DecidableEq, Repr

/-- Input of `loginUser` (zod `loginUserInputSchema`). -/
structure LoginInput where
  email : String
  password : String
  deriving DecidableEq, Repr

/-- The authentication context `loginUser` returns. -/
structure AuthContext where
  user_id : Nat
  email : String
  deriving DecidableEq, Repr

/-- `handlers/register_user.ts`: stores
`password_hash = salt + ':' + hashPassword(password, salt)` and `credits: 1`;
the random salt is an oracle parameter.  A duplicate email violates the
`unique` column constraint, surfacing as a storage error. -/
def registerUser (h : String → String) (input : RegisterInput) (salt : String)
    (now : Int) (st : St) : St × Res User :=
  match st.users.find? (fun u => u.email == input.email) with
  | some _ => (st, .err .dbFailure)
  | none =>
    let password_hash := salt ++ ":" ++ hashPassword h input.password salt
    let user : User :=
      { id := st.nextUserId, email := input.email, password_hash := password_hash,
        phone_number := input.phone_number, credits := 1,
        created_at := now, updated_at := now }
    ({ st with users := st.users ++ [user], nextUserId := st.nextUserId + 1 }, .ok user)

/-- `handlers/login_user.ts`: find the user by email, destructure
`const [storedHash, salt] = user.password_hash.split(':')` (a missing or empty
part is falsy), verify with `comparePasswords`, return `{ user_id, email }`. -/
def loginUser (h : String → String) (input : LoginInput) (st : St) : Res AuthContext :=
  match st.users.find? (fun u => u.email == input.email) with
  | none => .err .invalidCredentials
  | some user =>
    let parts := jsSplit ':' user.password_hash
    let storedHash := parts.getD 0 ""
    let salt := parts.getD 1 ""
    if storedHash = "" ∨ salt = "" then .err .invalidHashFormat
    else if comparePasswords h input.password storedHash salt then
      .ok { user_id := user.id, email := user.email }
    else .err .invalidCredentials

/-- Input of the credits-variant `createPost` (zod `createPostInputSchema`). -/
structure CreatePostInput where
  title : String
  description : String
  image_data : String
  image_filename : String
  deriving DecidableEq, Repr

/-- `handlers/create_post.ts` (credits variant): look up the user, count their
posts (`isFirstPost`), charge 0 or 5 credits, fail with
`Insufficient credits. Required: R, Available: A` when short; save the image
(filesystem collaborator, filename salted with `Date.now()` = `fsNow`), insert
the post with a 24-hour expiry, then — in a separate statement — deduct the
credits.  `secondWriteFails` injects a storage failure of that second write:
the insert is already committed when it happens. -/
def createPost (input : CreatePostInput) (userId : Nat) (now : Int) (fsNow : Nat)
    (secondWriteFails : Bool) (st : St) : St × Res Post :=
  match st.findUser userId with
  | none => (st, .err (.notFound "User not found"))
  | some user =>
    let existingPosts := st.posts.filter (fun p => p.user_id == userId)
    let isFirstPost := existingPosts.length == 0
    let creditsRequired : Int := if isFirstPost then 0 else 5
    if !isFirstPost && decide (user.credits < creditsRequired) then
      (st, .err (.insufficientCredits creditsRequired user.credits))
    else
      let uniqueFilename := natDec fsNow ++ "-" ++ input.image_filename
      let post : Post :=
        { id := st.nextPostId, user_id := userId, title := input.title,
          description := input.description,
          image_path := "/uploads/" ++ uniqueFilename,
          expires_at := now + dayMs, created_at := now, updated_at := now }
      let st1 := { st with posts := st.posts ++ [post], nextPostId := st.nextPostId + 1 }
      if isFirstPost then (st1, .ok post)
      else if secondWriteFails then (st1, .err .dbFailure)
      else
        (st1.updateUser userId
          (fun u => { u with credits := user.credits - creditsRequired, updated_at := now }),
         .ok post)

/-- The `payment_details` object (all fields optional). -/
structure PaymentDetails where
  card_number : Option String
  paypal_email : Option String
  bank_account : Option String
  deriving DecidableEq, Repr

/-- JS truthiness of `paymentDetails?.field`: present and non-empty. -/
def hasDetail : Option String → Bool
  | none => false
  | some s => !(s == "")

/-- The `cc` / `pp` / `bt` tag prefixed to a transaction id. -/
def methodCode : PaymentMethod → String
  | .credit_card => "cc"
  | .paypal => "pp"
  | .bank_transfer => "bt"

/-- `` `cc_${timestamp}_${randomId}` `` of `simulatePayment`: the method tag,
the `Date.now()` millisecond timestamp `t`, and the `Math.random()`-derived
base-36 suffix `r`, joined by underscores. -/
def mkTransactionId (m : PaymentMethod) (t : Nat) (r : String) : String :=
  methodCode m ++ "_" ++ natDec t ++ "_" ++ r

/-- `simulatePayment` of `handlers/purchase_credits.ts`: require the detail
field matching the method (a missing one throws naming that field), and return
the method-prefixed transaction id.  `t` and `r` are the `Date.now()` and
`Math.random()` oracles. -/
def simulatePayment (m : PaymentMethod) (_amount : Rat) (details : Option PaymentDetails)
    (t : Nat) (r : String) : Res String :=
  match m with
  | .credit_card =>
    if hasDetail (details.bind (fun d => d.card_number)) then
      .ok (mkTransactionId .credit_card t r)
    else .err (.missingDetail "Credit card number is required for credit card payments")
  | .paypal =>
    if hasDetail (details.bind (fun d => d.paypal_email)) then
      .ok (mkTransactionId .paypal t r)
    else .err (.missingDetail "PayPal email is required for PayPal payments")
  | .bank_transfer =>
    if hasDetail (details.bind (fun d => d.bank_account)) then
      .ok (mkTransactionId .bank_transfer t r)
    else .err (.missingDetail "Bank account is required for bank transfer payments")

/-- Input of `purchaseCredits` (zod `purchaseCreditsInputSchema`;
`credits` is validated as a positive integer). -/
structure PurchaseInput where
  credits : Int
  payment_method : PaymentMethod
  payment_details : Option PaymentDetails
  deriving DecidableEq, Repr

/-- `handlers/purchase_credits.ts`: verify the user exists, compute
`amountPaid = credits / 5`, simulate the payment, insert the
`credit_purchases` row, then — in a separate statement — add the credits to
the user's balance.  `secondWriteFails` injects a storage failure of that
second write: the purchase row is already committed when it happens. -/
def purchaseCredits (input : PurchaseInput) (userId : Nat) (t : Nat) (r : String)
    (now : Int) (secondWriteFails : Bool) (st : St) : St × Res Purchase :=
  match st.findUser userId with
  | none => (st, .err (.notFound "User not found"))
  | some user =>
    let amountPaid : Rat := (input.credits : Rat) / 5
    match simulatePayment input.payment_method amountPaid input.payment_details t r with
    | .err e => (st, .err e)
    | .ok transactionId =>
      let purchase : Purchase :=
        { id := st.nextPurchaseId, user_id := userId,
          credits_purchased := input.credits, amount_paid := amountPaid,
          payment_method := input.payment_method,
          transaction_id := transactionId, created_at := now }
      let st1 :=
        { st with purchases := st.purchases ++ [purchase], nextPurchaseId := st.nextPurchaseId + 1 }
      if secondWriteFails then (st1, .err .dbFailure)
      else
        (st1.updateUser userId
          (fun u => { u with credits := user.credits + input.credits, updated_at := now }),
         .ok purchase)

/-! ### Operation sequences (for the reachable-state invariant) -/

/-- One client-visible mutating operation of the credits variant, with its
external oracles (clock, salt, payment randomness) baked in. -/
inductive Op where
  | register (input : RegisterInput) (salt : String) (now : Int)
  | purchase (userId : Nat) (input : PurchaseInput) (t : Nat) (r : String) (now : Int)
  | post (userId : Nat) (input : CreatePostInput) (now : Int) (fsNow : Nat)
  deriving Repr

/-- The committed state after one complete operation (failed operations leave
the state unchanged; the storage layer does not fail mid-handler here). -/
def applyOp (h : String → String) (st : St) : Op → St
  | .register input salt now => (registerUser h input salt now st).1
  | .purchase userId input t r now => (purchaseCredits input userId t r now false st).1
  | .post userId input now fsNow => (createPost input userId now fsNow false st).1

/-- Run a sequence of operations from the empty database. -/
def runOps (h : String → String) (ops : List Op) : St :=
  ops.foldl (applyOp h) initSt

/-- The zod input validation the RPC layer performs before a handler runs:
`purchaseCredits` requires `credits` to be a positive integer. -/
def Op.valid : Op → Bool
  | .purchase _ input _ _ _ => decide (0 < input.credits)
  | _ => true

/-- A sample user with 10 credits. -/
def demoUser : User :=
  { id := 1, email := "u@example.com", password_hash := "x",
    phone_number := "+1", credits := 10, created_at := 0, updated_at := 0 }

/-- A sample post owned by `demoUser` (so their next post is a paid one). -/
def demoCPost : Post :=
  { id := 1, user_id := 1, title := "t", description := "d",
    image_path := "/uploads/1-i.png", expires_at := 1000,
    created_at := 0, updated_at := 0 }

/-- A sample database: one user with 10 credits who already has one post. -/
def demoSt : St :=
  { users := [demoUser], posts := [demoCPost], purchases := [],
    nextUserId := 2, nextPostId := 2, nextPurchaseId := 1 }

/-- A sample purchase input: 25 credits by credit card. -/
def demoPurchaseInput : PurchaseInput :=
  { credits := 25, payment_method := .credit_card,
    payment_details := some { card_number := some "4111111111111111",
                              paypal_email := none, bank_account := none } }

/-- A sample create-post input. -/
def demoPostInput : CreatePostInput :=
  { title := "t2", description := "d2", image_data := "QUJD", image_filename := "i.png" }

/-- The `credit_purchases` row `purchaseCredits` inserts (its `values use
the serial id, the input, the transaction id and the clock). -/
def insertedPurchase (input : PurchaseInput) (userId : Nat) (txid : String)
    (now : Int) (st : St) : Purchase :=
  { id := st.nextPurchaseId, user_id := userId, credits_purchased := input.credits,
    amount_paid := (input.credits : Rat) / 5, payment_method := input.payment_method,
    transaction_id := txid, created_at := now }

/-- The `posts` row the credits-variant `createPost` inserts. -/
def insertedPost (input : CreatePostInput) (userId : Nat) (now : Int) (fsNow : Nat)
    (st : St) : Post :=
  { id := st.nextPostId, user_id := userId, title := input.title,
    description := input.description,
    image_path := "/uploads/" ++ (natDec fsNow ++ "-" ++ input.image_filename),
    expires_at := now + dayMs, created_at := now, updated_at := now }

/-- A sample database whose one user has not posted yet. -/
def demoSt0 : St :=
  { users := [demoUser], posts := [], purchases := [],
    nextUserId := 2, nextPostId := 1, nextPurchaseId := 1 }

/-- `demoUser` with only 3 credits. -/
def demoPoorUser : User := { demoUser with credits := 3 }

/-- A sample database whose one user has one post and only 3 credits. -/
def demoStPoor : St :=
  { users := [demoPoorUser], posts := [demoCPost], purchases := [],
    nextUserId := 2, nextPostId := 2, nextPurchaseId := 1 }

/-- A stand-in for the external SHA-256 hex digest: any function returning a
64-hex-character string (here a constant one), for concrete runs. -/
def constDigest (_s : String) : String := String.mk (List.replicate 64 'a')

/-- A concrete 32-hex-character salt (`randomBytes(16).toString('hex')`). -/
def salt32 : String := String.mk (List.replicate 32 '0')

/-- A sample operation sequence: register, buy 25 credits, post twice. -/
def demoOps : List Op :=
  [ .register { email := "a@b.c", password := "hunter2", phone_number := "+1" } "00" 0,
    .purchase 1 demoPurchaseInput 7 "abc" 0,
    .post 1 demoPostInput 0 7,
    .post 1 demoPostInput 1 8 ]

end Credits

/-! ## Helper lemmas -/

/-- A decimal digit character is not an underscore. -/
theorem digitChar_lt_ten_ne_underscore : ∀ d : Nat, d < 10 → Nat.digitChar d ≠ '_' := by
  decide

/-- Every character `decDigitsRev` emits is the digit character of some digit. -/
theorem mem_decDigitsRev {c : Char} :
    ∀ {fuel n : Nat}, c ∈ decDigitsRev fuel n → ∃ d, d < 10 ∧ c = Nat.digitChar d := by
  intro fuel
  induction fuel with
  | zero => intro n h; simp [decDigitsRev] at h
  | succ f ih =>
    intro n h
    by_cases hn : n < 10
    · simp only [decDigitsRev, if_pos hn, List.mem_singleton] at h
      exact ⟨n, hn, h⟩
    · simp only [decDigitsRev, if_neg hn, List.mem_cons] at h
      rcases h with h | h
      · exact ⟨n % 10, Nat.mod_lt _ (by omega), h⟩
      · exact ih h

/-- Decimal strings contain no underscore. -/
theorem natDec_no_underscore (n : Nat) : '_' ∉ (natDec n).data := by
  intro hmem
  have hrev : '_' ∈ decDigitsRev (n + 1) n := by
    simpa [natDec, List.mem_reverse] using hmem
  obtain ⟨d, hd, heq⟩ := mem_decDigitsRev hrev
  exact digitChar_lt_ten_ne_underscore d hd heq.symm

/-- `digitVal` inverts `Nat.digitChar` on digits. -/
theorem digitVal_digitChar : ∀ d : Nat, d < 10 → digitVal (Nat.digitChar d) = d := by
  decide

/-- With enough fuel, reading the digit list back yields the number. -/
theorem ofDigitsRev_decDigitsRev :
    ∀ fuel n : Nat, n < fuel → ofDigitsRev (decDigitsRev fuel n) = n := by
  intro fuel
  induction fuel with
  | zero => intro n h; omega
  | succ f ih =>
    intro n h
    by_cases hn : n < 10
    · simp [decDigitsRev, if_pos hn, ofDigitsRev, digitVal_digitChar n hn]
    · have hdivlt : n / 10 < f := by
        have h1 : n / 10 < n := Nat.div_lt_self (by omega) (by omega)
        omega
      simp only [decDigitsRev, if_neg hn, ofDigitsRev, ih _ hdivlt,
        digitVal_digitChar (n % 10) (Nat.mod_lt _ (by omega))]
      omega

/-- Decimal printing is injective. -/
theorem natDec_inj {a b : Nat} (h : natDec a = natDec b) : a = b := by
  have hdata : (decDigitsRev (a + 1) a).reverse = (decDigitsRev (b + 1) b).reverse :=
    congrArg String.data h
  have hdigits : decDigitsRev (a + 1) a = decDigitsRev (b + 1) b := by
    simpa using congrArg List.reverse hdata
  calc a = ofDigitsRev (decDigitsRev (a + 1) a) :=
        (ofDigitsRev_decDigitsRev _ _ (Nat.lt_succ_self a)).symm
    _ = ofDigitsRev (decDigitsRev (b + 1) b) := congrArg _ hdigits
    _ = b := ofDigitsRev_decDigitsRev _ _ (Nat.lt_succ_self b)

/-- Splitting at a separator character that occurs in neither part is
injective on both parts. -/
theorem append_sep_inj {sep : Char} :
    ∀ {a1 a2 b1 b2 : List Char}, sep ∉ a1 → sep ∉ a2 →
      a1 ++ sep :: b1 = a2 ++ sep :: b2 → a1 = a2 ∧ b1 = b2 := by
  intro a1
  induction a1 with
  | nil =>
    intro a2 b1 b2 _ h2 heq
    cases a2 with
    | nil => simpa using heq
    | cons c a2' =>
      simp only [List.nil_append, List.cons_append, List.cons.injEq] at heq
      cases heq.1
      exact absurd (List.mem_cons_self _ _) h2
  | cons c a1' ih =>
    intro a2 b1 b2 h1 h2 heq
    cases a2 with
    | nil =>
      simp only [List.nil_append, List.cons_append, List.cons.injEq] at heq
      cases heq.1
      exact absurd (List.mem_cons_self _ _) h1
    | cons c2 a2' =>
      simp only [List.cons_append, List.cons.injEq] at heq
      obtain ⟨hc, htl⟩ := heq
      cases hc
      have h1' : sep ∉ a1' := fun hm => h1 (List.mem_cons_of_mem _ hm)
      have h2' : sep ∉ a2' := fun hm => h2 (List.mem_cons_of_mem _ hm)
      obtain ⟨ha, hb⟩ := ih h1' h2' htl
      exact ⟨by rw [ha], hb⟩

namespace Credits

/-- Splitting a list without the separator yields the singleton part. -/
theorem jsSplitData_no_sep {sep : Char} :
    ∀ {l : List Char}, sep ∉ l → jsSplitData sep l = [l] := by
  intro l
  induction l with
  | nil => intro _; rfl
  | cons c cs ih =>
    intro h
    have hc : ¬ c = sep := fun hceq => h (by rw [hceq]; exact List.mem_cons_self _ _)
    have hcs : sep ∉ cs := fun hm => h (List.mem_cons_of_mem _ hm)
    simp [jsSplitData, hc, ih hcs]

/-- Splitting `a ++ sep :: b` when `a` has no separator peels off `a`. -/
theorem jsSplitData_append {sep : Char} :
    ∀ {a : List Char} (b : List Char), sep ∉ a →
      jsSplitData sep (a ++ sep :: b) = a :: jsSplitData sep b := by
  intro a
  induction a with
  | nil => intro b _; simp [jsSplitData]
  | cons c a' ih =>
    intro b h
    have hc : ¬ c = sep := fun hceq => h (by rw [hceq]; exact List.mem_cons_self _ _)
    have ha' : sep ∉ a' := fun hm => h (List.mem_cons_of_mem _ hm)
    simp [jsSplitData, hc, ih b ha']

/-- Hex decoding halves the length of an all-hex character list (an unpaired
trailing character is dropped). -/
theorem bufferFromHexData_length :
    ∀ l : List Char, (∀ c ∈ l, (hexDigitVal c).isSome = true) →
      2 * (bufferFromHexData l).length = l.length - l.length % 2
  | [], _ => by simp [bufferFromHexData]
  | [c], _ => by simp [bufferFromHexData]
  | c1 :: c2 :: rest, h => by
    have h1 : (hexDigitVal c1).isSome = true := h c1 (by simp)
    have h2 : (hexDigitVal c2).isSome = true := h c2 (by simp)
    obtain ⟨v1, hv1⟩ := Option.isSome_iff_exists.mp h1
    obtain ⟨v2, hv2⟩ := Option.isSome_iff_exists.mp h2
    have ih := bufferFromHexData_length rest (fun c hc => h c (by simp [hc]))
    simp only [bufferFromHexData, hv1, hv2, List.length_cons]
    omega

/-- A hex-digit character is not a colon. -/
theorem hex_ne_colon {c : Char} (h : (hexDigitVal c).isSome = true) : c ≠ ':' := by
  intro hc
  rw [hc] at h
  simp [hexDigitVal] at h

end Credits

namespace Fee

/-- `find?` by id after an id-preserving update-where maps the found row. -/
theorem find?_updateById (l : List Post) (i : Nat) (g : Post → Post)
    (hg : ∀ q : Post, (q.id == i) = true → ((g q).id == i) = true) :
    (l.map (fun q => if q.id == i then g q else q)).find? (fun q => q.id == i) =
      (l.find? (fun q => q.id == i)).map g := by
  induction l with
  | nil => rfl
  | cons p l ih =>
    cases hp : (p.id == i) with
    | true =>
      rw [List.map_cons, if_pos hp,
        List.find?_cons_of_pos (p := fun q : Post => q.id == i) _ (hg p hp),
        List.find?_cons_of_pos (p := fun q : Post => q.id == i) _ hp, Option.map_some']
    | false =>
      have hhead : (if (p.id == i) = true then g p else p) = p := by simp [hp]
      rw [List.map_cons, hhead,
        List.find?_cons_of_neg (p := fun q : Post => q.id == i) _ (by simp [hp]),
        List.find?_cons_of_neg (p := fun q : Post => q.id == i) _ (by simp [hp]), ih]

end Fee

/-- Two strings with the same character data are equal. -/
theorem string_data_inj {s t : String} (h : s.data = t.data) : s = t := by
  cases s; cases t; exact congrArg String.mk h

/-- Rebuilding a string from its data is the identity. -/
theorem string_mk_data (s : String) : String.mk s.data = s := by
  cases s; rfl

namespace Credits

/-- Hex strings contain no colon. -/
theorem isHexStr_no_colon {s : String} (h : isHexStr s = true) : ':' ∉ s.data := by
  intro hm
  have hc := List.all_eq_true.mp h ':' hm
  simp [hexDigitVal] at hc

/-- Hex decoding a hex string yields half its length in bytes. -/
theorem bufferFromHex_length_of_hex {s : String} (hhex : isHexStr s = true) :
    2 * (bufferFromHex s).length = s.data.length - s.data.length % 2 :=
  bufferFromHexData_length s.data (List.all_eq_true.mp hhex)

/-- Splitting `salt ++ ":" ++ digest` at the colon recovers the two parts. -/
theorem jsSplit_salt_digest {salt digest : String}
    (hs : ':' ∉ salt.data) (hd : ':' ∉ digest.data) :
    jsSplit ':' (salt ++ ":" ++ digest) = [salt, digest] := by
  have hcolon : (":" : String).data = [':'] := rfl
  have hdata : (salt ++ ":" ++ digest).data = salt.data ++ ':' :: digest.data := by
    rw [String.data_append, String.data_append, hcolon, List.append_assoc,
      List.singleton_append]
  unfold jsSplit
  rw [hdata, jsSplitData_append _ hs, jsSplitData_no_sep hd]
  simp [string_mk_data]

/-- The character data of a transaction id, exposing both separators. -/
theorem mkTransactionId_data (m : PaymentMethod) (t : Nat) (r : String) :
    (mkTransactionId m t r).data =
      (methodCode m).data ++ '_' :: ((natDec t).data ++ '_' :: r.data) := by
  have hu : ("_" : String).data = ['_'] := rfl
  simp [mkTransactionId, String.data_append, hu]

/-- The method tag determines the method. -/
theorem methodCode_data_inj :
    ∀ m1 m2 : PaymentMethod, (methodCode m1).data = (methodCode m2).data → m1 = m2 := by
  intro m1 m2 h
  have h2 : methodCode m1 = methodCode m2 := string_data_inj h
  cases m1 <;> cases m2 <;> first
    | rfl
    | exact absurd h2 (by decide)

/-- The method tag contains no underscore. -/
theorem methodCode_no_underscore : ∀ m : PaymentMethod, '_' ∉ (methodCode m).data := by
  intro m
  cases m <;> decide

/-- A successful simulated payment returns exactly the built transaction id. -/
theorem simulatePayment_ok {m : PaymentMethod} {a : Rat} {d : Option PaymentDetails}
    {t : Nat} {r : String} {s : String}
    (h : simulatePayment m a d t r = .ok s) : s = mkTransactionId m t r := by
  cases m <;> simp only [simulatePayment] at h <;> split at h <;>
    simp_all

/-- `purchaseCredits` when the user id is absent: no write, `User not found`. -/
theorem purchaseCredits_nouser {input : PurchaseInput} {userId t : Nat} {r : String}
    {now : Int} {swf : Bool} {st : St} (hfu : st.findUser userId = none) :
    purchaseCredits input userId t r now swf st = (st, .err (.notFound "User not found")) := by
  simp only [purchaseCredits]
  rw [hfu]

/-- `purchaseCredits` when the simulated payment rejects: no write. -/
theorem purchaseCredits_payerr {input : PurchaseInput} {userId t : Nat} {r : String}
    {now : Int} {swf : Bool} {st : St} {user : User} {e : Err}
    (hfu : st.findUser userId = some user)
    (hsp : simulatePayment input.payment_method ((input.credits : Rat) / 5)
      input.payment_details t r = .err e) :
    purchaseCredits input userId t r now swf st = (st, .err e) := by
  simp only [purchaseCredits]
  rw [hfu, hsp]

/-- `purchaseCredits` when the balance update fails after the insert: the
purchase row is committed, the balance is untouched, the call throws. -/
theorem purchaseCredits_secondWriteFail {input : PurchaseInput} {userId t : Nat} {r : String}
    {now : Int} {st : St} {user : User} {txid : String}
    (hfu : st.findUser userId = some user)
    (hsp : simulatePayment input.payment_method ((input.credits : Rat) / 5)
      input.payment_details t r = .ok txid) :
    purchaseCredits input userId t r now true st =
      ({ st with
         purchases := st.purchases ++ [insertedPurchase input userId txid now st]
         nextPurchaseId := st.nextPurchaseId + 1 }, .err .dbFailure) := by
  simp only [purchaseCredits]
  rw [hfu, hsp]
  rfl

/-- A complete successful `purchaseCredits` run: the purchase row is appended
and the owner's balance becomes the previously-read balance plus the credits. -/
theorem purchaseCredits_ok_eq {input : PurchaseInput} {userId t : Nat} {r : String}
    {now : Int} {st : St} {user : User} {txid : String}
    (hfu : st.findUser userId = some user)
    (hsp : simulatePayment input.payment_method ((input.credits : Rat) / 5)
      input.payment_details t r = .ok txid) :
    purchaseCredits input userId t r now false st =
      (St.updateUser
        { st with
          purchases := st.purchases ++ [insertedPurchase input userId txid now st]
          nextPurchaseId := st.nextPurchaseId + 1 }
        userId (fun u => { u with credits := user.credits + input.credits, updated_at := now }),
       .ok (insertedPurchase input userId txid now st)) := by
  simp only [purchaseCredits]
  rw [hfu, hsp]
  rfl

/-- `createPost` when the user id is absent: no write, `User not found`. -/
theorem createPost_nouser {input : CreatePostInput} {userId : Nat} {now : Int}
    {fsNow : Nat} {swf : Bool} {st : St} (hfu : st.findUser userId = none) :
    createPost input userId now fsNow swf st = (st, .err (.notFound "User not found")) := by
  simp only [createPost]
  rw [hfu]

/-- `createPost` for the owner's first post: the row is inserted and no credit
is charged (the whole `users` relation is untouched). -/
theorem createPost_first {input : CreatePostInput} {userId : Nat} {now : Int}
    {fsNow : Nat} {swf : Bool} {st : St} {user : User}
    (hfu : st.findUser userId = some user)
    (hfirst : ((st.posts.filter (fun p => p.user_id == userId)).length == 0) = true) :
    createPost input userId now fsNow swf st =
      ({ st with
         posts := st.posts ++ [insertedPost input userId now fsNow st]
         nextPostId := st.nextPostId + 1 }, .ok (insertedPost input userId now fsNow st)) := by
  simp only [createPost]
  rw [hfu, hfirst]
  simp only [Bool.not_true, Bool.false_and, Bool.false_eq_true, if_false, if_true]
  rfl

/-- `createPost` for a later post with a balance below 5: no write, and the
error reports required 5 against the available balance. -/
theorem createPost_insufficient {input : CreatePostInput} {userId : Nat} {now : Int}
    {fsNow : Nat} {swf : Bool} {st : St} {user : User}
    (hfu : st.findUser userId = some user)
    (hfirst : ((st.posts.filter (fun p => p.user_id == userId)).length == 0) = false)
    (hcred : decide (user.credits < 5) = true) :
    createPost input userId now fsNow swf st =
      (st, .err (.insufficientCredits 5 user.credits)) := by
  simp only [createPost]
  rw [hfu, hfirst]
  simp only [Bool.not_false, Bool.true_and, Bool.false_eq_true, if_false, hcred, if_true]

/-- A complete successful paid `createPost` run: the post row is appended and
the owner's balance becomes the previously-read balance minus 5. -/
theorem createPost_paid {input : CreatePostInput} {userId : Nat} {now : Int}
    {fsNow : Nat} {st : St} {user : User}
    (hfu : st.findUser userId = some user)
    (hfirst : ((st.posts.filter (fun p => p.user_id == userId)).length == 0) = false)
    (hcred : decide (user.credits < 5) = false) :
    createPost input userId now fsNow false st =
      (St.updateUser
        { st with
          posts := st.posts ++ [insertedPost input userId now fsNow st]
          nextPostId := st.nextPostId + 1 }
        userId (fun u => { u with credits := user.credits - 5, updated_at := now }),
       .ok (insertedPost input userId now fsNow st)) := by
  simp only [createPost]
  rw [hfu, hfirst]
  simp only [Bool.not_false, Bool.true_and, Bool.false_eq_true, if_false, hcred]
  rfl

/-- `createPost` for a paid post when the credit deduction fails after the
insert: the post row is committed, the balance untouched, the call throws. -/
theorem createPost_secondWriteFail {input : CreatePostInput} {userId : Nat} {now : Int}
    {fsNow : Nat} {st : St} {user : User}
    (hfu : st.findUser userId = some user)
    (hfirst : ((st.posts.filter (fun p => p.user_id == userId)).length == 0) = false)
    (hcred : decide (user.credits < 5) = false) :
    createPost input userId now fsNow true st =
      ({ st with
         posts := st.posts ++ [insertedPost input userId now fsNow st]
         nextPostId := st.nextPostId + 1 }, .err .dbFailure) := by
  simp only [createPost]
  rw [hfu, hfirst]
  simp only [Bool.not_false, Bool.true_and, Bool.false_eq_true, if_false, hcred]
  rfl

/-- The user a `findUser` hit returns lies in the relation. -/
theorem mem_of_findUser {st : St} {i : Nat} {user : User}
    (hfu : st.findUser i = some user) : user ∈ st.users :=
  List.mem_of_find?_eq_some hfu

/-- One complete operation preserves non-negativity of every balance,
provided the RPC layer validated the operation's input. -/
theorem applyOp_nonneg (h : String → String) (st : St) (op : Op) (hv : op.valid = true)
    (hst : ∀ u ∈ st.users, 0 ≤ u.credits) :
    ∀ u ∈ (applyOp h st op).users, 0 ≤ u.credits := by
  cases op with
  | register input salt now =>
    simp only [applyOp, registerUser]
    cases hfe : st.users.find? (fun u => u.email == input.email) with
    | some u0 => exact hst
    | none =>
      intro u hu
      rcases List.mem_append.mp hu with h1 | h2
      · exact hst u h1
      · rw [List.mem_singleton] at h2
        subst h2
        exact zero_le_one
  | purchase userId input t r now =>
    have hpos : 0 < input.credits := of_decide_eq_true hv
    simp only [applyOp]
    cases hfu : st.findUser userId with
    | none => rw [purchaseCredits_nouser hfu]; exact hst
    | some user =>
      cases hsp : simulatePayment input.payment_method ((input.credits : Rat) / 5)
          input.payment_details t r with
      | err e => rw [purchaseCredits_payerr hfu hsp]; exact hst
      | ok txid =>
        rw [purchaseCredits_ok_eq hfu hsp]
        intro u hu
        simp only [St.updateUser, List.mem_map] at hu
        obtain ⟨v, hv', hvu⟩ := hu
        have huser : 0 ≤ user.credits := hst user (mem_of_findUser hfu)
        by_cases hid : (v.id == userId) = true
        · rw [if_pos hid] at hvu
          subst hvu
          simp only
          omega
        · rw [if_neg hid] at hvu
          subst hvu
          exact hst v hv'
  | post userId input now fsNow =>
    simp only [applyOp]
    cases hfu : st.findUser userId with
    | none => rw [createPost_nouser hfu]; exact hst
    | some user =>
      cases hfirst : ((st.posts.filter (fun p => p.user_id == userId)).length == 0) with
      | true => rw [createPost_first hfu hfirst]; exact hst
      | false =>
        cases hcred : decide (user.credits < 5) with
        | true => rw [createPost_insufficient hfu hfirst hcred]; exact hst
        | false =>
          have hge : ¬ user.credits < 5 := of_decide_eq_false hcred
          rw [createPost_paid hfu hfirst hcred]
          intro u hu
          simp only [St.updateUser, List.mem_map] at hu
          obtain ⟨v, hv', hvu⟩ := hu
          by_cases hid : (v.id == userId) = true
          · rw [if_pos hid] at hvu
            subst hvu
            simp only
            omega
          · rw [if_neg hid] at hvu
            subst hvu
            exact hst v hv'

/-- Folding validated operations preserves non-negativity of every balance. -/
theorem foldl_nonneg (h : String → String) :
    ∀ (ops : List Op) (st : St), (∀ op ∈ ops, op.valid = true) →
      (∀ u ∈ st.users, 0 ≤ u.credits) →
      ∀ u ∈ (List.foldl (applyOp h) st ops).users, 0 ≤ u.credits := by
  intro ops
  induction ops with
  | nil => intro st _ hst; simpa using hst
  | cons op ops ih =>
    intro st hops hst
    simp only [List.foldl_cons]
    exact ih _ (fun o ho => hops o (List.mem_cons_of_mem _ ho))
      (applyOp_nonneg h st op (hops op (List.mem_cons_self _ _)) hst)

end Credits

end PaidBlog

/-! ## Claims -/

open PaidBlog PaidBlog.Fee in
/-- C4: the claim says every operation returns `is_active = (now < expires_at)`
(strict), so a post expiring exactly now is inactive.  `getPost` instead
computes `currentTime <= post.expires_at`: at the exact expiry instant it
reports the post active, while `getPosts` at the same instant reports the same
post inactive. -/
theorem C4_getPost_boundary_active :
    (getPost 1 1000 demoDB).map PostOut.is_active = some true ∧
    ¬ ((1000 : Int) < demoPost.expires_at) ∧
    (getPosts 1000 demoDB).map PostOut.is_active = [false] := by
  decide

open PaidBlog PaidBlog.Fee in
/-- C5: immediately after a fee-variant `createPost` and after a `repost`, the
post (both as returned and as stored) has `posted_at` equal to the operation's
current time and `expires_at = posted_at + 24h`. -/
theorem C5_window_24h :
    (∀ (input : CreatePostInput) (now now2 : Int) (db : DB),
      (createPost input now now2 db).2.posted_at = now ∧
      (createPost input now now2 db).2.expires_at =
        (createPost input now now2 db).2.posted_at + dayMs ∧
      ∃ p : Post, (createPost input now now2 db).1.posts.getLast? = some p ∧
        p.posted_at = now ∧ p.expires_at = p.posted_at + dayMs) ∧
    (∀ (i : Nat) (now now2 : Int) (db : DB) (p : Post), db.find i = some p →
      ∃ db2 out, repost i now now2 db = .ok (db2, out) ∧
        out.posted_at = now ∧ out.expires_at = out.posted_at + dayMs ∧
        db2.find i =
          some { p with posted_at := now, expires_at := now + dayMs, updated_at := now }) := by
  constructor
  · intro input now now2 db
    exact ⟨rfl, rfl, _, List.getLast?_concat _, rfl, rfl⟩
  · intro i now now2 db p hfind
    have hp : (p.id == i) = true :=
      List.find?_some (p := fun q : Post => q.id == i) hfind
    have hupd := find?_updateById db.posts i
      (fun _ => ({ p with posted_at := now, expires_at := now + dayMs, updated_at := now } : Post))
      (fun _ _ => hp)
    have hfind' : List.find? (fun q : Post => q.id == i) db.posts = some p := hfind
    rw [hfind', Option.map_some'] at hupd
    refine ⟨db.updateById i
        (fun _ => ({ p with posted_at := now, expires_at := now + dayMs, updated_at := now } : Post)),
      ({ p with posted_at := now, expires_at := now + dayMs, updated_at := now } : Post).out
        (decide (now2 < now + dayMs)), ?_, rfl, rfl, ?_⟩
    · simp only [repost, hfind]
    · exact hupd

open PaidBlog PaidBlog.Fee in
/-- C5 witness: reposting the demo post at time 5. -/
theorem C5_window_24h_witness :
    demoDB.find 1 = some demoPost ∧
    ∃ db2 out, repost 1 5 6 demoDB = .ok (db2, out) ∧
      out.posted_at = 5 ∧ out.expires_at = out.posted_at + dayMs ∧
      db2.find 1 =
        some { demoPost with posted_at := 5, expires_at := 5 + dayMs, updated_at := 5 } :=
  ⟨by decide, C5_window_24h.2 1 5 6 demoDB demoPost (by decide)⟩

open PaidBlog PaidBlog.Fee in
/-- C9: `updatePost` on an existing post changes exactly the provided fields
among title/content/price, leaves `posted_at`, `expires_at` and `created_at`
unchanged, and sets `updated_at` to the current time, both in the returned
object and in the stored row. -/
theorem C9_update_frame :
    ∀ (input : UpdatePostInput) (now now2 : Int) (db : DB) (p : Post),
      db.find input.id = some p →
      ∃ db2 out, updatePost input now now2 db = .ok (db2, out) ∧
        out.title = input.title.getD p.title ∧
        out.content = input.content.getD p.content ∧
        out.price = input.price.getD p.price ∧
        out.posted_at = p.posted_at ∧
        out.expires_at = p.expires_at ∧
        out.created_at = p.created_at ∧
        out.updated_at = now ∧
        db2.find input.id = some (applyUpdate input now p) := by
  intro input now now2 db p hfind
  have hp : (p.id == input.id) = true :=
    List.find?_some (p := fun q : Post => q.id == input.id) hfind
  have hid : ((applyUpdate input now p).id == input.id) = true := hp
  have hupd := find?_updateById db.posts input.id
    (fun _ => applyUpdate input now p) (fun _ _ => hid)
  have hfind' : List.find? (fun q : Post => q.id == input.id) db.posts = some p := hfind
  rw [hfind', Option.map_some'] at hupd
  refine ⟨db.updateById input.id (fun _ => applyUpdate input now p),
    (applyUpdate input now p).out (decide (now2 < (applyUpdate input now p).expires_at)),
    ?_, rfl, rfl, rfl, rfl, rfl, rfl, rfl, ?_⟩
  · simp only [updatePost, hfind]
  · exact hupd

open PaidBlog PaidBlog.Fee in
/-- C9 witness: updating only the title of the demo post at time 5. -/
theorem C9_update_frame_witness :
    demoDB.find 1 = some demoPost ∧
    ∃ db2 out,
      updatePost { id := 1, title := some "n", content := none, price := none } 5 6 demoDB =
        .ok (db2, out) ∧
      out.title = (some "n").getD demoPost.title ∧
      out.content = (none : Option String).getD demoPost.content ∧
      out.price = (none : Option Rat).getD demoPost.price ∧
      out.posted_at = demoPost.posted_at ∧
      out.expires_at = demoPost.expires_at ∧
      out.created_at = demoPost.created_at ∧
      out.updated_at = 5 ∧
      db2.find 1 =
        some (applyUpdate { id := 1, title := some "n", content := none, price := none }
          5 demoPost) :=
  ⟨by decide,
   C9_update_frame { id := 1, title := some "n", content := none, price := none }
     5 6 demoDB demoPost (by decide)⟩

open PaidBlog PaidBlog.Fee in
/-- C10: `deletePost` on an absent id fails with the not-found error; on an
existing id it removes the post, after which `getPost` reports not found and a
second `deletePost` of the same id also fails with not-found. -/
theorem C10_delete_semantics :
    (∀ (i : Nat) (db : DB), db.find i = none →
      deletePost i db = .err (.notFound ("Post with id " ++ Nat.repr i ++ " not found"))) ∧
    (∀ (i : Nat) (now : Int) (db : DB) (p : Post), db.find i = some p →
      ∃ db2, deletePost i db = .ok (db2, i) ∧
        db2.find i = none ∧
        getPost i now db2 = none ∧
        deletePost i db2 =
          .err (.notFound ("Post with id " ++ Nat.repr i ++ " not found"))) := by
  constructor
  · intro i db hfind
    simp only [deletePost, hfind]
  · intro i now db p hfind
    have hnone : ({ db with posts := db.posts.filter (fun q => !(q.id == i)) } : DB).find i
        = none := by
      apply List.find?_eq_none.mpr
      intro x hx
      have hxm := (List.mem_filter.mp hx).2
      simp only [Bool.not_eq_true'] at hxm
      simp [hxm]
    refine ⟨_, ?_, hnone, ?_, ?_⟩
    · simp only [deletePost, hfind]
    · simp only [getPost, hnone]
    · simp only [deletePost, hnone]

open PaidBlog PaidBlog.Fee in
/-- C10 witness: deleting the demo post (id 1), then re-reading and re-deleting
it; and deleting the absent id 2. -/
theorem C10_delete_semantics_witness :
    (demoDB.find 2 = none ∧
      deletePost 2 demoDB =
        .err (.notFound ("Post with id " ++ Nat.repr 2 ++ " not found"))) ∧
    (demoDB.find 1 = some demoPost ∧
      ∃ db2, deletePost 1 demoDB = .ok (db2, 1) ∧
        db2.find 1 = none ∧
        getPost 1 7 db2 = none ∧
        deletePost 1 db2 =
          .err (.notFound ("Post with id " ++ Nat.repr 1 ++ " not found"))) :=
  ⟨⟨by decide, C10_delete_semantics.1 2 demoDB (by decide)⟩,
   ⟨by decide, C10_delete_semantics.2 1 7 demoDB demoPost (by decide)⟩⟩

open PaidBlog PaidBlog.Credits in
/-- C2: the spec requires each paid-create and credit-purchase to be an atomic
two-write unit.  The handlers issue the row insert and the balance update as
two independent statements with no transaction: when the second write fails,
the first stays committed.  Concretely, with the balance update failing, the
purchase run leaves the `credit_purchases` row persisted with the balance
still 10, and the paid create-post run leaves the post row persisted with the
balance still 10. -/
theorem C2_partial_commit :
    ((purchaseCredits demoPurchaseInput 1 7 "abc" 0 true demoSt).2 = .err .dbFailure ∧
     (purchaseCredits demoPurchaseInput 1 7 "abc" 0 true demoSt).1.purchases.map
       Purchase.credits_purchased = [25] ∧
     (purchaseCredits demoPurchaseInput 1 7 "abc" 0 true demoSt).1.users.map
       User.credits = [10]) ∧
    ((createPost demoPostInput 1 0 7 true demoSt).2 = .err .dbFailure ∧
     (createPost demoPostInput 1 0 7 true demoSt).1.posts.length = 2 ∧
     (createPost demoPostInput 1 0 7 true demoSt).1.users.map User.credits = [10]) := by
  decide

open PaidBlog PaidBlog.Credits in
/-- C6: every completed `purchaseCredits` run records `amount_paid` equal to
exactly `credits / 5`, and the recorded row is persisted. -/
theorem C6_exchange_rate :
    ∀ (input : PurchaseInput) (userId : Nat) (t : Nat) (r : String) (now : Int)
      (swf : Bool) (st : St) (p : Purchase),
      (purchaseCredits input userId t r now swf st).2 = .ok p →
      p.amount_paid = (input.credits : Rat) / 5 ∧
      p ∈ (purchaseCredits input userId t r now swf st).1.purchases := by
  intro input userId t r now swf st p hok
  cases hfu : st.findUser userId with
  | none => rw [purchaseCredits_nouser hfu] at hok; exact absurd hok (by simp)
  | some user =>
    cases hsp : simulatePayment input.payment_method ((input.credits : Rat) / 5)
        input.payment_details t r with
    | err e => rw [purchaseCredits_payerr hfu hsp] at hok; exact absurd hok (by simp)
    | ok transactionId =>
      cases swf with
      | true => rw [purchaseCredits_secondWriteFail hfu hsp] at hok; exact absurd hok (by simp)
      | false =>
        rw [purchaseCredits_ok_eq hfu hsp] at hok ⊢
        simp only [Res.ok.injEq] at hok
        subst hok
        exact ⟨rfl, by simp [St.updateUser, insertedPurchase]⟩

open PaidBlog PaidBlog.Credits in
/-- C6 witness: buying 25 credits records an `amount_paid` of `25 / 5`. -/
theorem C6_exchange_rate_witness :
    ∃ p, (purchaseCredits demoPurchaseInput 1 7 "abc" 0 false demoSt).2 = .ok p ∧
      p.amount_paid = ((25 : Int) : Rat) / 5 ∧
      p ∈ (purchaseCredits demoPurchaseInput 1 7 "abc" 0 false demoSt).1.purchases :=
  ⟨_, rfl, C6_exchange_rate demoPurchaseInput 1 7 "abc" 0 false demoSt _ rfl⟩

open PaidBlog PaidBlog.Credits in
/-- C8 counterexample: two completed purchases that observe the same
`Date.now()` millisecond and the same `Math.random()` suffix are two distinct
rows (ids 1 and 2) carrying the very same `transaction_id`; nothing in the
code or schema rejects the duplicate. -/
theorem C8_counterexample :
    ((purchaseCredits demoPurchaseInput 1 70 "xyz" 0 false
        (purchaseCredits demoPurchaseInput 1 70 "xyz" 0 false demoSt).1).1.purchases.map
      Purchase.id = [1, 2]) ∧
    ((purchaseCredits demoPurchaseInput 1 70 "xyz" 0 false
        (purchaseCredits demoPurchaseInput 1 70 "xyz" 0 false demoSt).1).1.purchases.map
      Purchase.transaction_id = ["cc_70_xyz", "cc_70_xyz"]) := by
  decide

open PaidBlog PaidBlog.Credits in
/-- C8 (amended): every completed purchase's `transaction_id` is the method
tag, the millisecond timestamp and the random suffix joined by underscores —
so it is method-prefixed, and two completed purchases receive distinct
`transaction_id`s whenever their `(timestamp, suffix)` oracle pairs (or
methods) differ; equal oracles yield the same id, and uniqueness is not
otherwise enforced. -/
theorem C8_transaction_ids :
    (∀ (input : PurchaseInput) (userId : Nat) (t : Nat) (r : String) (now : Int)
        (swf : Bool) (st : St) (p : Purchase),
      (purchaseCredits input userId t r now swf st).2 = .ok p →
      p.transaction_id = mkTransactionId input.payment_method t r) ∧
    (∀ (m : PaymentMethod) (t : Nat) (r : String),
      (mkTransactionId m t r).data =
        (methodCode m).data ++ '_' :: ((natDec t).data ++ '_' :: r.data)) ∧
    (∀ (m1 m2 : PaymentMethod) (t1 t2 : Nat) (r1 r2 : String),
      '_' ∉ r1.data → '_' ∉ r2.data →
      mkTransactionId m1 t1 r1 = mkTransactionId m2 t2 r2 →
      m1 = m2 ∧ t1 = t2 ∧ r1 = r2) := by
  refine ⟨?_, mkTransactionId_data, ?_⟩
  · intro input userId t r now swf st p hok
    cases hfu : st.findUser userId with
    | none => rw [purchaseCredits_nouser hfu] at hok; exact absurd hok (by simp)
    | some user =>
      cases hsp : simulatePayment input.payment_method ((input.credits : Rat) / 5)
          input.payment_details t r with
      | err e => rw [purchaseCredits_payerr hfu hsp] at hok; exact absurd hok (by simp)
      | ok transactionId =>
        have htx : transactionId = mkTransactionId input.payment_method t r :=
          simulatePayment_ok hsp
        cases swf with
        | true => rw [purchaseCredits_secondWriteFail hfu hsp] at hok; exact absurd hok (by simp)
        | false =>
          rw [purchaseCredits_ok_eq hfu hsp] at hok
          simp only [Res.ok.injEq] at hok
          subst hok
          exact htx
  · intro m1 m2 t1 t2 r1 r2 hr1 hr2 heq
    have hdata := congrArg String.data heq
    rw [mkTransactionId_data, mkTransactionId_data] at hdata
    obtain ⟨hm, hrest⟩ :=
      append_sep_inj (methodCode_no_underscore m1) (methodCode_no_underscore m2) hdata
    obtain ⟨ht, hr⟩ :=
      append_sep_inj (natDec_no_underscore t1) (natDec_no_underscore t2) hrest
    refine ⟨methodCode_data_inj m1 m2 hm, ?_, string_data_inj hr⟩
    exact natDec_inj (string_data_inj ht)

open PaidBlog PaidBlog.Credits in
/-- C8 witness: a concrete completed purchase whose id carries the `cc` tag
and the oracles, and a concrete application of the injectivity part. -/
theorem C8_transaction_ids_witness :
    (∃ p, (purchaseCredits demoPurchaseInput 1 7 "abc" 0 false demoSt).2 = .ok p ∧
      p.transaction_id = mkTransactionId .credit_card 7 "abc") ∧
    ('_' ∉ ("abc" : String).data ∧
      (PaymentMethod.credit_card = PaymentMethod.credit_card ∧ 7 = 7 ∧
        ("abc" : String) = "abc")) :=
  ⟨⟨_, rfl, C8_transaction_ids.1 demoPurchaseInput 1 7 "abc" 0 false demoSt _ rfl⟩,
   ⟨by decide,
    C8_transaction_ids.2.2 .credit_card .credit_card 7 7 "abc" "abc"
      (by decide) (by decide) rfl⟩⟩

open PaidBlog PaidBlog.Credits in
/-- C3: the credits-variant `createPost` charges nothing on a user's first
post (the whole `users` relation, hence the balance, is untouched); on a later
post it deducts exactly 5 credits from the owner; and with a balance below 5
it fails with the insufficient-credits error reporting required 5 against the
available balance, writing nothing. -/
theorem C3_credit_debit :
    (∀ (input : CreatePostInput) (userId : Nat) (now : Int) (fsNow : Nat)
        (st : St) (user : User),
      st.findUser userId = some user →
      ((st.posts.filter (fun p => p.user_id == userId)).length == 0) = true →
      createPost input userId now fsNow false st =
        ({ st with
           posts := st.posts ++ [insertedPost input userId now fsNow st]
           nextPostId := st.nextPostId + 1 }, .ok (insertedPost input userId now fsNow st))) ∧
    (∀ (input : CreatePostInput) (userId : Nat) (now : Int) (fsNow : Nat)
        (st : St) (user : User),
      st.findUser userId = some user →
      ((st.posts.filter (fun p => p.user_id == userId)).length == 0) = false →
      ¬ user.credits < 5 →
      (createPost input userId now fsNow false st).1.users =
        st.users.map (fun u => if u.id == userId then
          { u with credits := user.credits - 5, updated_at := now } else u) ∧
      (createPost input userId now fsNow false st).2 =
        .ok (insertedPost input userId now fsNow st)) ∧
    (∀ (input : CreatePostInput) (userId : Nat) (now : Int) (fsNow : Nat)
        (st : St) (user : User),
      st.findUser userId = some user →
      ((st.posts.filter (fun p => p.user_id == userId)).length == 0) = false →
      user.credits < 5 →
      createPost input userId now fsNow false st =
        (st, .err (.insufficientCredits 5 user.credits))) := by
  refine ⟨?_, ?_, ?_⟩
  · intro input userId now fsNow st user hfu hfirst
    exact createPost_first hfu hfirst
  · intro input userId now fsNow st user hfu hfirst h5
    have hcred : decide (user.credits < 5) = false := decide_eq_false h5
    rw [createPost_paid hfu hfirst hcred]
    exact ⟨rfl, rfl⟩
  · intro input userId now fsNow st user hfu hfirst h5
    exact createPost_insufficient hfu hfirst (decide_eq_true h5)

open PaidBlog PaidBlog.Credits in
/-- C3 witness: a first post charges nothing, a second post with 10 credits
deducts 5, and a second post with 3 credits fails reporting 5 against 3. -/
theorem C3_credit_debit_witness :
    (demoSt0.findUser 1 = some demoUser ∧
      ((demoSt0.posts.filter (fun p => p.user_id == 1)).length == 0) = true ∧
      createPost demoPostInput 1 0 7 false demoSt0 =
        ({ demoSt0 with
           posts := demoSt0.posts ++ [insertedPost demoPostInput 1 0 7 demoSt0]
           nextPostId := demoSt0.nextPostId + 1 },
         .ok (insertedPost demoPostInput 1 0 7 demoSt0))) ∧
    (demoSt.findUser 1 = some demoUser ∧
      ((demoSt.posts.filter (fun p => p.user_id == 1)).length == 0) = false ∧
      ¬ demoUser.credits < 5 ∧
      (createPost demoPostInput 1 0 7 false demoSt).1.users =
        demoSt.users.map (fun u => if u.id == 1 then
          { u with credits := demoUser.credits - 5, updated_at := 0 } else u) ∧
      (createPost demoPostInput 1 0 7 false demoSt).2 =
        .ok (insertedPost demoPostInput 1 0 7 demoSt)) ∧
    (demoStPoor.findUser 1 = some demoPoorUser ∧
      ((demoStPoor.posts.filter (fun p => p.user_id == 1)).length == 0) = false ∧
      demoPoorUser.credits < 5 ∧
      createPost demoPostInput 1 0 7 false demoStPoor =
        (demoStPoor, .err (.insufficientCredits 5 demoPoorUser.credits))) :=
  ⟨⟨by decide, by decide, C3_credit_debit.1 demoPostInput 1 0 7 demoSt0 demoUser
      (by decide) (by decide)⟩,
   ⟨by decide, by decide, by decide,
    C3_credit_debit.2.1 demoPostInput 1 0 7 demoSt demoUser
      (by decide) (by decide) (by decide)⟩,
   ⟨by decide, by decide, by decide,
    C3_credit_debit.2.2 demoPostInput 1 0 7 demoStPoor demoPoorUser
      (by decide) (by decide) (by decide)⟩⟩

open PaidBlog PaidBlog.Credits in
/-- C7: in every state reachable from the empty database by complete
operations whose inputs passed the RPC validation (purchases carry a positive
integer credit count), every user's balance is non-negative: registration
starts it at 1, a purchase adds the positive credits, and a paid post
subtracts 5 only after the balance was checked to be at least 5. -/
theorem C7_balances_nonneg :
    ∀ (h : String → String) (ops : List Op), (∀ op ∈ ops, op.valid = true) →
      ∀ u ∈ (runOps h ops).users, 0 ≤ u.credits := by
  intro h ops hops
  refine foldl_nonneg h ops initSt hops ?_
  intro u hu
  simp [initSt] at hu

open PaidBlog PaidBlog.Credits in
/-- C7 witness: the sample sequence register → purchase 25 → free post →
paid post leaves every balance non-negative. -/
theorem C7_balances_nonneg_witness :
    (∀ op ∈ demoOps, op.valid = true) ∧
    ∀ u ∈ (runOps constDigest demoOps).users, 0 ≤ u.credits :=
  ⟨by decide, C7_balances_nonneg constDigest demoOps (by decide)⟩

open PaidBlog PaidBlog.Credits in
/-- C1 (code bug): `registerUser` stores `password_hash` as `salt:hash`, but
`loginUser` destructures `[storedHash, salt] = hash.split(':')`, i.e. expects
`hash:salt` (as its own test helper builds).  For every user registered with
any email and password — with any 64-hex-char digest function and 32-hex-char
salt — a login with those same credentials compares the 16-byte salt against a
32-byte digest, the buffer lengths differ, and the call fails with the
authentication error instead of returning the user's id and email. -/
theorem C1_register_login_fails :
    ∀ (h : String → String) (email password phone salt : String) (now : Int),
      (∀ s, (h s).length = 64 ∧ isHexStr (h s) = true) →
      salt.length = 32 → isHexStr salt = true →
      ∃ u : User,
        (registerUser h { email := email, password := password, phone_number := phone }
          salt now initSt).2 = .ok u ∧
        loginUser h { email := email, password := password }
          (registerUser h { email := email, password := password, phone_number := phone }
            salt now initSt).1 = .err .invalidCredentials := by
  intro h email password phone salt now hh hslen hshex
  obtain ⟨hdlen, hdhex⟩ := hh (password ++ salt)
  refine ⟨_, rfl, ?_⟩
  have hsplit : jsSplit ':' (salt ++ ":" ++ h (password ++ salt)) =
      [salt, h (password ++ salt)] :=
    jsSplit_salt_digest (isHexStr_no_colon hshex) (isHexStr_no_colon hdhex)
  have hne1 : ¬ (salt = "") := by
    intro he
    rw [he] at hslen
    exact absurd hslen (by decide)
  have hne2 : ¬ (h (password ++ salt) = "") := by
    intro he
    rw [he] at hdlen
    exact absurd hdlen (by decide)
  have hcmp : comparePasswords h password salt (h (password ++ salt)) = false := by
    have hb1 := bufferFromHex_length_of_hex hshex
    rw [show salt.data.length = 32 from hslen] at hb1
    have hl1 : (bufferFromHex salt).length = 16 := by omega
    obtain ⟨hdlen2, hdhex2⟩ := hh (password ++ h (password ++ salt))
    have hb2 := bufferFromHex_length_of_hex hdhex2
    rw [show (h (password ++ h (password ++ salt))).data.length = 64 from hdlen2] at hb2
    have hl2 : (bufferFromHex (h (password ++ h (password ++ salt)))).length = 32 := by
      omega
    simp [comparePasswords, hashPassword, hl1, hl2]
  simp [loginUser, List.find?, registerUser, initSt, hashPassword, hsplit, hne1, hne2, hcmp]

open PaidBlog PaidBlog.Credits in
/-- C1 witness: a concrete registration whose immediate login with the same
email and password throws `Invalid email or password`. -/
theorem C1_register_login_fails_witness :
    ∃ u : User,
      (registerUser constDigest
        { email := "a@b.c", password := "hunter2", phone_number := "+1" }
        salt32 0 initSt).2 = .ok u ∧
      loginUser constDigest { email := "a@b.c", password := "hunter2" }
        (registerUser constDigest
          { email := "a@b.c", password := "hunter2", phone_number := "+1" }
          salt32 0 initSt).1 = .err .invalidCredentials :=
  C1_register_login_fails constDigest "a@b.c" "hunter2" "+1" salt32 0
    (fun _ =>
      ⟨(by decide : (String.mk (List.replicate 64 'a')).length = 64),
       (by decide : isHexStr (String.mk (List.replicate 64 'a')) = true)⟩)
    (by decide) (by decide)
